import Mathlib

/-
  Verification of the pretty event formatter of this tracing fork.

  Shallow embedding of:
    src/tracing-subscriber/src/fmt/format/style.rs   (conditional ANSI style engine)
    src/tracing-subscriber/src/fmt/format/pretty.rs  (PrettyVisitor, format_event)

  Styled values are modelled at the level of their rendered text: a value in any
  formatting mode (Display, Debug, the numeric-base and exponent variants) renders
  to some string, and painting wraps that string in escape codes when the style is
  active.  Machinery that lives outside src (the timestamp and level helpers of
  format/mod.rs and the ErrorSourceList renderer) is modelled from the spec and
  marked as such.
-/

namespace TracingPretty

/-- Severity levels, ordered TRACE < DEBUG < INFO < WARN < ERROR. -/
inductive Level where
  | trace
  | debug
  | info
  | warn
  | error
deriving DecidableEq

/-- The foreground colors used by Style::level_color (owo_colors purple/blue/green/yellow/red). -/
inductive Color where
  | purple
  | blue
  | green
  | yellow
  | red
deriving DecidableEq

/-- SGR code of each color (owo_colors foreground codes). -/
def Color.code : Color → String
  | .purple => "35"
  | .blue => "34"
  | .green => "32"
  | .yellow => "33"
  | .red => "31"

/-- The attribute set of an owo_colors Style: bold, dimmed, italic and an optional
foreground color.  Only the attributes reachable from style.rs are modelled. -/
structure AnsiStyle where
  bold : Bool
  dimmed : Bool
  italic : Bool
  fg : Option Color
deriving DecidableEq

/-- owo_colors Style::new(): no attributes. -/
def AnsiStyle.new : AnsiStyle := ⟨false, false, false, none⟩

/-- An owo_colors style with no attributes emits no escape codes at all. -/
def AnsiStyle.isPlain (s : AnsiStyle) : Bool :=
  !s.bold && !s.dimmed && !s.italic && s.fg.isNone

/-- Concatenate strings. -/
def strConcat : List String → String
  | [] => ""
  | x :: xs => x ++ strConcat xs

/-- Join strings with a separator strictly between consecutive elements. -/
def sepJoin (sep : String) : List String → String
  | [] => ""
  | [x] => x
  | x :: y :: ys => x ++ sep ++ sepJoin sep (y :: ys)

/-- SGR codes of the attributes of a style, in the order bold, dimmed, italic, color. -/
def AnsiStyle.codes (s : AnsiStyle) : List String :=
  (if s.bold then ["1"] else []) ++ (if s.dimmed then ["2"] else []) ++
    (if s.italic then ["3"] else []) ++
    (match s.fg with
     | some c => [c.code]
     | none => [])

/-- Rendered text of owo_colors Styled: the escape-code prefix, the value's own
rendered text, and the reset suffix; a plain style adds nothing. -/
def AnsiStyle.styleText (s : AnsiStyle) (txt : String) : String :=
  if s.isPlain then txt
  else "\x1b[" ++ sepJoin ";" s.codes ++ "m" ++ txt ++ "\x1b[0m"

/-- Style of style.rs (ansi build): the activity flag plus an owo_colors style. -/
structure Style where
  is_ansi : Bool
  inner : AnsiStyle
deriving DecidableEq

/-- Style::new. -/
def Style.new (is_ansi : Bool) : Style := ⟨is_ansi, AnsiStyle.new⟩

/-- Style::with_ansi. -/
def Style.with_ansi (s : Style) (is_ansi : Bool) : Style := ⟨is_ansi, s.inner⟩

/-- Style::bold. -/
def Style.bold (s : Style) : Style := ⟨s.is_ansi, { s.inner with bold := true }⟩

/-- Style::dimmed. -/
def Style.dimmed (s : Style) : Style := ⟨s.is_ansi, { s.inner with dimmed := true }⟩

/-- Style::italic. -/
def Style.italic (s : Style) : Style := ⟨s.is_ansi, { s.inner with italic := true }⟩

/-- Style::level_color: picks the severity foreground color and hard-codes
is_ansi to true (the source writes `Style { is_ansi: true, inner }`). -/
def Style.level_color (s : Style) (level : Level) : Style :=
  let inner :=
    match level with
    | .trace => { s.inner with fg := some Color.purple }
    | .debug => { s.inner with fg := some Color.blue }
    | .info => { s.inner with fg := some Color.green }
    | .warn => { s.inner with fg := some Color.yellow }
    | .error => { s.inner with fg := some Color.red }
  ⟨true, inner⟩

/-- StylePainter::paint at the rendered-text level: when is_ansi, the inner style
decorates the text; otherwise the value is wrapped in `AnsiStyle::new().style(d)`,
whose rendering is the undecorated text. -/
def Style.paintText (s : Style) (txt : String) : String :=
  if s.is_ansi then s.inner.styleText txt else AnsiStyle.new.styleText txt

/-- paint of the no-ansi build: `Styled { target: d }`, whose fmt impls all forward
to the wrapped value, so the rendered text is the value's own rendered text. -/
def noAnsiPaintText (txt : String) : String := txt

/-- The kinds of field values the visitor receives, as a closed tagged variant:
a string (Visit::record_str), an i64 (Visit::record_i64, which forwards to
record_debug with the decimal text), an arbitrary Debug value given by its
rendered debug text (Visit::record_debug), and an error value given by its
Display text and the Display texts of its causal chain (Visit::record_error). -/
inductive FieldValue where
  | str (s : String)
  | int (n : Int)
  | debugVal (s : String)
  | errorVal (display : String) (sources : List String)
deriving DecidableEq

/-- One (name, value) field record of an event or scope. -/
structure FieldRec where
  name : String
  value : FieldValue
deriving DecidableEq

/-- Escaping of one character by the Debug impl of str (the cases reachable from
plain log text: quote, backslash and the common control characters). -/
def escapeChar (c : Char) : String :=
  if c = '"' then "\\\""
  else if c = '\\' then "\\\\"
  else if c = '\n' then "\\n"
  else if c = '\t' then "\\t"
  else if c = '\r' then "\\r"
  else String.mk [c]

/-- Body of the Debug rendering of a str. -/
def rustEscape (s : String) : String := strConcat (s.data.map escapeChar)

/-- Debug rendering of a str value: surrounding quotes plus escaping. -/
def debugQuote (s : String) : String := "\"" ++ rustEscape s ++ "\""

/-- Modelled from the spec: the ErrorChainRenderer (ErrorSourceList, not under src)
renders the causal chain as a comma-space separated list of the sources' Display
texts enclosed in square brackets. -/
def errorSourceList (sources : List String) : String :=
  "[" ++ sepJoin ", " sources ++ "]"

/-- The raw-identifier check of record_debug_impl: `name.starts_with("r#")` with
the stripped remainder `&name[2..]`. -/
def rawIdentStripped (name : String) : Option String :=
  match name.data with
  | 'r' :: '#' :: rest => some (String.mk rest)
  | _ => none

/-- The writer seen by the visitor: the ambient style (Writer::style), the text
written so far, and a failure model for the external sink: `none` is a sink that
never fails (a String buffer), `some k` a sink that accepts k further characters
and rejects any write that would exceed them. -/
structure PWriter where
  style : Style
  out : String
  budget : Option Nat

/-- One write to the sink: appends on success, leaves the writer unchanged and
reports fmt::Error on failure. -/
def PWriter.writeStr (w : PWriter) (s : String) : PWriter × Except Unit Unit :=
  match w.budget with
  | none => ({ w with out := w.out ++ s }, Except.ok ())
  | some k =>
    if s.length ≤ k then
      ({ w with out := w.out ++ s, budget := some (k - s.length) }, Except.ok ())
    else
      (w, Except.error ())

/-- PrettyVisitor: the writer, the "no field written yet" flag, and the stored
result (fmt::Result, Ok until the first failed write). -/
structure PrettyVisitor where
  writer : PWriter
  is_empty : Bool
  result : Except Unit Unit

/-- PrettyVisitor::new(writer, is_empty) with result Ok. -/
def initVisitor (st : Style) : PrettyVisitor := ⟨⟨st, "", none⟩, true, Except.ok ()⟩

/-- PrettyVisitor::write_padding: the first call only clears the flag; later calls
write the styled separator. -/
def PrettyVisitor.write_padding (v : PrettyVisitor) : PrettyVisitor × Except Unit Unit :=
  if v.is_empty then ({ v with is_empty := false }, Except.ok ())
  else
    let (w, r) := v.writer.writeStr (v.writer.style.paintText ", ")
    ({ v with writer := w }, r)

/-- Padding followed by one body write, with the `?` propagation of a padding
failure (the body is not attempted). -/
def PrettyVisitor.writeAfterPadding (v : PrettyVisitor) (body : String) :
    PrettyVisitor × Except Unit Unit :=
  match v.write_padding with
  | (v1, Except.error e) => (v1, Except.error e)
  | (v1, Except.ok _) =>
    let (w, r) := v1.writer.writeStr body
    ({ v1 with writer := w }, r)

/-- PrettyVisitor::record_debug_impl over the rendered text of the styled value:
a message field writes only the value, a raw-identifier field writes the stripped
name as label, any other field writes its name as label.  (The tracing-log build
with its `log.` skip branch is not compiled in.) -/
def PrettyVisitor.record_debug_impl (v : PrettyVisitor) (name : String)
    (styledValue : String) : PrettyVisitor × Except Unit Unit :=
  let bold := v.writer.style.bold
  if name = "message" then
    v.writeAfterPadding styledValue
  else
    match rawIdentStripped name with
    | some stripped =>
      v.writeAfterPadding (bold.paintText stripped ++ (bold.paintText ":" ++ (" " ++ styledValue)))
    | none =>
      v.writeAfterPadding (bold.paintText name ++ (bold.paintText ":" ++ (" " ++ styledValue)))

/-- The `{:?}` text of the styled value each Visit method passes to
record_debug_impl: record_str wraps a message value in format_args (Display, no
quotes) and any other string in the style's Debug wrapper (quoted); record_i64
and record_debug paint the debug text; record_error with a non-empty source chain
builds the `<value>, <name>.sources: [...]` text, and otherwise paints the
Display text. -/
def styledValueText (st : Style) (name : String) : FieldValue → String
  | .str s => if name = "message" then st.paintText s else st.paintText (debugQuote s)
  | .int n => st.paintText (toString n)
  | .debugVal s => st.paintText s
  | .errorVal d sources =>
    match sources with
    | [] => st.paintText d
    | _ :: _ =>
      st.paintText d ++ (st.paintText "," ++ (" " ++
        (st.bold.paintText name ++ (st.bold.paintText ".sources" ++
          (st.paintText ":" ++ (" " ++ st.paintText (errorSourceList sources)))))))

/-- One Visit call: every record method first returns unchanged when a failure is
already stored, and otherwise stores the result of record_debug_impl. -/
def visitField (v : PrettyVisitor) (f : FieldRec) : PrettyVisitor :=
  match v.result with
  | Except.error _ => v
  | Except.ok _ =>
    let (v1, r) := v.record_debug_impl f.name (styledValueText v.writer.style f.name f.value)
    { v1 with result := r }

/-- Drive the visitor over a field sequence in order (Event::record). -/
def visitAll (v : PrettyVisitor) (fs : List FieldRec) : PrettyVisitor :=
  fs.foldl visitField v

/-- VisitOutput::finish: returns the stored result. -/
def PrettyVisitor.finish (v : PrettyVisitor) : Except Unit Unit := v.result

/-- The full text a successful visit of one field appends after its padding. -/
def fieldText (st : Style) (f : FieldRec) : String :=
  let sv := styledValueText st f.name f.value
  if f.name = "message" then sv
  else
    match rawIdentStripped f.name with
    | some stripped => st.bold.paintText stripped ++ (st.bold.paintText ":" ++ (" " ++ sv))
    | none => st.bold.paintText f.name ++ (st.bold.paintText ":" ++ (" " ++ sv))

/-- The display switches consulted by format_event: the writer's ambient style
and the Format/Pretty display flags. -/
structure Config where
  wstyle : Style
  display_level : Bool
  display_target : Bool
  display_line_number : Bool
  display_filename : Bool
  display_location : Bool
  display_thread_name : Bool
  display_thread_id : Bool

/-- Event metadata consulted by format_event; the field records are passed
separately, as Event::record visits them. -/
structure EventMeta where
  level : Level
  target : String
  file : Option String
  line : Option Nat

/-- The thread executing the format call: its optional name and the rendered
debug text of its id. -/
structure ThreadInfo where
  name : Option String
  id : String

/-- One scope of the event's scope chain: its metadata and its FormattedFields
cache in the extensions, absent when the registry never populated it. -/
structure ScopeRec where
  target : String
  name : String
  cache : Option String

/-- Modelled from the spec: the per-level label written by format_level
(format/mod.rs is not under src); five characters wide, right-aligned, matching
the layout of the spec's scenario line. -/
def levelLabel : Level → String
  | .trace => "TRACE"
  | .debug => "DEBUG"
  | .info => " INFO"
  | .warn => " WARN"
  | .error => "ERROR"

/-- Modelled from the spec: format_level writes the level label styled with the
severity color when the writer's styling is active, the plain label otherwise,
followed by one separating space. -/
def formatLevelText (wstyle : Style) (l : Level) : String :=
  (if wstyle.is_ansi then (wstyle.level_color l).paintText (levelLabel l) else levelLabel l) ++ " "

/-- The style used for the header and the event's own fields: the level color of
the writer's style when level display is on (which forces the style active),
otherwise the writer's style. -/
def eventStyle (cfg : Config) (l : Level) : Style :=
  if cfg.display_level then cfg.wstyle.level_color l else cfg.wstyle

/-- The level segment of the header. -/
def levelPart (cfg : Config) (l : Level) : String :=
  if cfg.display_level then formatLevelText cfg.wstyle l else ""

/-- The target segment of the header: bold target and styled colon. -/
def targetPart (cfg : Config) (style : Style) (target : String) : String :=
  if cfg.display_target then style.bold.paintText target ++ style.paintText ":" else ""

/-- `let line_number = if self.display_line_number { meta.line() } else { None }`. -/
def lineNumberOf (cfg : Config) (line : Option Nat) : Option Nat :=
  if cfg.display_line_number then line else none

/-- The inline line-number segment of the header, written by the
`if let (Some(line_number), false, true)` match of format_event. -/
def inlineLinePart (cfg : Config) (style : Style) (line : Option Nat) : String :=
  match lineNumberOf cfg line, cfg.display_filename, cfg.display_location with
  | some n, false, true => style.paintText (toString n) ++ style.paintText ":"
  | _, _, _ => ""

/-- The text the event's own field pass leaves in the sink (an infallible String
buffer inside format_event). -/
def fieldsOut (st : Style) (fields : List FieldRec) : String :=
  (visitAll (initVisitor st) fields).writer.out

/-- `let thread = self.display_thread_name || self.display_thread_id`. -/
def threadFlag (cfg : Config) : Bool := cfg.display_thread_name || cfg.display_thread_id

/-- The location line: `    at <file>[:<line>]`, ending in a space instead of a
line break when a thread segment follows; when it is not written, a thread
segment still gets its four-space indent. -/
def locationPart (cfg : Config) (di : Style) (file : Option String) (line : Option Nat) : String :=
  match file, cfg.display_location, cfg.display_filename with
  | some f, true, true =>
    "    " ++ (di.paintText "at" ++ (" " ++ (f ++
      ((match lineNumberOf cfg line with
        | some l => ":" ++ toString l
        | none => "") ++
       (if threadFlag cfg then " " else "\n")))))
  | _, _, _ => if threadFlag cfg then "    " else ""

/-- The thread segment: the styled word `on`, one space, then the thread name
and id as configured, then a line break. -/
def threadPart (cfg : Config) (di : Style) (th : ThreadInfo) : String :=
  if threadFlag cfg then
    di.paintText "on" ++ (" " ++
      ((if cfg.display_thread_name then
          match th.name with
          | some nm => nm ++ (if cfg.display_thread_id then " " else "")
          | none => ""
        else "") ++
       ((if cfg.display_thread_id then th.id else "") ++ "\n")))
  else ""

/-- Everything format_event writes before the scope chain, in source order:
the two-space indent, the timestamp text (opaque to this core), the level
segment, the target segment, the inline line number, one space, the event's own
fields, a line break, the location line and the thread segment. -/
def eventBody (cfg : Config) (ts : String) (meta : EventMeta) (fields : List FieldRec)
    (th : ThreadInfo) : String :=
  let style := eventStyle cfg meta.level
  let di := cfg.wstyle.dimmed.italic
  "  " ++ (ts ++ (levelPart cfg meta.level ++ (targetPart cfg style meta.target ++
    (inlineLinePart cfg style meta.line ++ (" " ++ (fieldsOut style fields ++
      ("\n" ++ (locationPart cfg di meta.file meta.line ++ threadPart cfg di th))))))))

/-- The message of the `.expect(...)` on the FormattedFields lookup. -/
def missingCacheMsg : String :=
  "Unable to find FormattedFields in extensions; this is a bug"

/-- The scope loop of format_event, innermost scope first: per scope the `in`
head (with or without the target segment), the FormattedFields lookup — whose
absence is the panic, modelled as Except.error — the `with` clause when the
cached text is non-empty, and a line break. -/
def scopeLoop (cfg : Config) (di bold : Style) : List ScopeRec → Except String String
  | [] => Except.ok ""
  | s :: rest =>
    let head :=
      if cfg.display_target then
        "    " ++ (di.paintText "in" ++ (" " ++ (s.target ++ ("::" ++ bold.paintText s.name))))
      else
        "    " ++ (di.paintText "in" ++ (" " ++ bold.paintText s.name))
    match s.cache with
    | none => Except.error missingCacheMsg
    | some fields =>
      let withPart := if fields = "" then "" else " " ++ (di.paintText "with" ++ (" " ++ fields))
      match scopeLoop cfg di bold rest with
      | Except.error e => Except.error e
      | Except.ok tail => Except.ok (head ++ (withPart ++ ("\n" ++ tail)))

/-- format_event of Format<Pretty>: the pre-scope body, the scope chain, and the
trailing blank line; a missing field cache aborts with the panic. -/
def formatEvent (cfg : Config) (ts : String) (meta : EventMeta) (fields : List FieldRec)
    (th : ThreadInfo) (scopes : List ScopeRec) : Except String String :=
  match scopeLoop cfg cfg.wstyle.dimmed.italic cfg.wstyle.bold scopes with
  | Except.error e => Except.error e
  | Except.ok sc => Except.ok (eventBody cfg ts meta fields th ++ (sc ++ "\n"))

/-- The spec's description of one scope line: four spaces, `in `, the target
segment `<target>::` omitted when target display is disabled, the bold name,
` with <cached text>` exactly when the cached text is non-empty, a line break. -/
def scopeLine (cfg : Config) (di bold : Style) (s : ScopeRec) : String :=
  "    " ++ (di.paintText "in" ++ (" " ++
    ((if cfg.display_target then s.target ++ "::" else "") ++ (bold.paintText s.name ++
      ((if s.cache.getD "" = "" then ""
        else " " ++ (di.paintText "with" ++ (" " ++ s.cache.getD ""))) ++ "\n")))))

/-- The spec's description of the inline line number: present exactly when
line-number display is enabled, filename display is disabled, location display
is enabled and the line is known. -/
def specInlineLine (cfg : Config) (style : Style) (line : Option Nat) : String :=
  if cfg.display_line_number && !cfg.display_filename && cfg.display_location then
    match line with
    | some n => style.paintText (toString n) ++ style.paintText ":"
    | none => ""
  else ""

/-- The header text strictly before the inline line number: indent, timestamp,
level segment, target segment. -/
def headPre (cfg : Config) (ts : String) (meta : EventMeta) : String :=
  "  " ++ (ts ++ (levelPart cfg meta.level ++
    targetPart cfg (eventStyle cfg meta.level) meta.target))

/-- The body text strictly after the inline line number: the space, the fields,
the line break, the location line and the thread segment. -/
def headPost (cfg : Config) (meta : EventMeta) (fields : List FieldRec) (th : ThreadInfo) :
    String :=
  " " ++ (fieldsOut (eventStyle cfg meta.level) fields ++
    ("\n" ++ (locationPart cfg cfg.wstyle.dimmed.italic meta.file meta.line ++
      threadPart cfg cfg.wstyle.dimmed.italic th)))

/-- The body text strictly before the thread segment. -/
def bodyBeforeThread (cfg : Config) (ts : String) (meta : EventMeta)
    (fields : List FieldRec) : String :=
  let style := eventStyle cfg meta.level
  "  " ++ (ts ++ (levelPart cfg meta.level ++ (targetPart cfg style meta.target ++
    (inlineLinePart cfg style meta.line ++ (" " ++ (fieldsOut style fields ++
      ("\n" ++ locationPart cfg cfg.wstyle.dimmed.italic meta.file meta.line)))))))

/-- Number of (possibly overlapping) occurrences of a pattern in a character list. -/
def countOccAux (pat : List Char) : List Char → Nat
  | [] => 0
  | c :: rest => (if pat.isPrefixOf (c :: rest) then 1 else 0) + countOccAux pat rest

/-- Number of occurrences of a pattern substring in a string. -/
def countOcc (s pat : String) : Nat := countOccAux pat.data s.data

/-- A field sequence whose first value itself contains the separator characters. -/
def c4fields : List FieldRec := [⟨"a", FieldValue.str "x, y"⟩, ⟨"b", FieldValue.int 1⟩]

/-- The configuration of the spec's end-to-end scenario: styling inactive, level,
target, line number, filename and location display on, thread display off. -/
def c5cfg : Config := ⟨Style.new false, true, true, true, true, true, false, false⟩

/-- The event of the end-to-end scenario. -/
def c5meta : EventMeta := ⟨Level.info, "app", some "app.rs", some 10⟩

/-- The fields of the end-to-end scenario. -/
def c5fields : List FieldRec :=
  [⟨"message", FieldValue.str "hello"⟩, ⟨"count", FieldValue.int 3⟩]

/-- The executing thread of the end-to-end scenario (not displayed). -/
def c5th : ThreadInfo := ⟨some "main", "ThreadId(1)"⟩

/-- What the code actually produces after the indent and the timestamp text in
the end-to-end scenario: the level segment is plain, but — because level display
routes the header and field styling through level_color, which forces the style
active — the target, colon, message, separator and the count field are wrapped
in green (and bold-green) escape codes, and the message is unquoted. -/
def c5tail : String :=
  " INFO \x1b[1;32mapp\x1b[0m\x1b[32m:\x1b[0m \x1b[32mhello\x1b[0m\x1b[32m, \x1b[0m\x1b[1;32mcount\x1b[0m\x1b[1;32m:\x1b[0m \x1b[32m3\x1b[0m\n    at app.rs:10\n\n"

/-- Configuration of the nested-scope scenario: styling inactive, target display
on, no thread display. -/
def c6cfg : Config := ⟨Style.new false, true, true, false, false, true, false, false⟩

/-- Inner scope B of the nested-scope scenario, with an empty field cache. -/
def c6scopeB : ScopeRec := ⟨"svc", "handle", some ""⟩

/-- Outer scope A of the nested-scope scenario, with a populated field cache. -/
def c6scopeA : ScopeRec := ⟨"svc", "serve", some "port: 8080"⟩

/-- An event used by the scope and thread witnesses. -/
def cMeta : EventMeta := ⟨Level.warn, "svc", some "svc.rs", some 7⟩

/-- Configuration of the dangling-thread-line scenario: thread-name display on,
thread-id display off. -/
def c10cfg : Config := ⟨Style.new false, true, true, false, false, true, true, false⟩

/-- The unnamed executing thread of the dangling-thread-line scenario. -/
def c10th : ThreadInfo := ⟨none, "ThreadId(2)"⟩

/-- A visitor whose sink rejects every write (zero remaining budget), with a
field already written. -/
def failingVisitor : PrettyVisitor := ⟨⟨Style.new false, "", some 0⟩, false, Except.ok ()⟩

end TracingPretty

namespace TracingPretty

theorem strAppendAssoc : ∀ a b c : String, a ++ b ++ c = a ++ (b ++ c)
  | ⟨a⟩, ⟨b⟩, ⟨c⟩ => congrArg String.mk (List.append_assoc a b c)

theorem strAppendNil : ∀ a : String, a ++ "" = a
  | ⟨a⟩ => congrArg String.mk (List.append_nil a)

theorem strEmptyAppend : ∀ a : String, "" ++ a = a
  | ⟨_⟩ => rfl

theorem sepJoin_cons (sep x : String) :
    ∀ xs : List String, sepJoin sep (x :: xs) = x ++ strConcat (xs.map fun y => sep ++ y)
  | [] => by simp [sepJoin, strConcat, strAppendNil]
  | y :: ys => by
    rw [show sepJoin sep (x :: y :: ys) = x ++ sep ++ sepJoin sep (y :: ys) from rfl,
      sepJoin_cons sep y ys]
    simp [strConcat, strAppendAssoc]

theorem writeAfterPadding_ok (st : Style) (out : String) (e : Bool) (body : String) :
    PrettyVisitor.writeAfterPadding ⟨⟨st, out, none⟩, e, Except.ok ()⟩ body =
      (⟨⟨st, (if e then out else out ++ st.paintText ", ") ++ body, none⟩, false, Except.ok ()⟩,
        Except.ok ()) := by
  cases e <;> rfl

theorem visitField_ok (st : Style) (out : String) (e : Bool) (f : FieldRec) :
    visitField ⟨⟨st, out, none⟩, e, Except.ok ()⟩ f =
      ⟨⟨st, (if e then out else out ++ st.paintText ", ") ++ fieldText st f, none⟩, false,
        Except.ok ()⟩ := by
  unfold visitField PrettyVisitor.record_debug_impl fieldText
  by_cases hm : f.name = "message"
  · simp [hm, writeAfterPadding_ok]
  · cases hr : rawIdentStripped f.name <;> simp [hm, hr, writeAfterPadding_ok]

theorem visitField_frozen (v : PrettyVisitor) (f : FieldRec)
    (h : v.result = Except.error ()) : visitField v f = v := by
  unfold visitField
  rw [h]

theorem foldl_frozen (v : PrettyVisitor) (h : v.result = Except.error ()) :
    ∀ fs : List FieldRec, fs.foldl visitField v = v
  | [] => rfl
  | f :: fs => by rw [List.foldl_cons, visitField_frozen v f h, foldl_frozen v h fs]

theorem visitAll_ok_notEmpty (st : Style) :
    ∀ (fs : List FieldRec) (out : String),
      visitAll ⟨⟨st, out, none⟩, false, Except.ok ()⟩ fs =
        ⟨⟨st, out ++ strConcat (fs.map fun f => st.paintText ", " ++ fieldText st f), none⟩,
          false, Except.ok ()⟩
  | [], out => by simp [visitAll, strConcat, strAppendNil]
  | f :: fs, out => by
    show visitAll (visitField ⟨⟨st, out, none⟩, false, Except.ok ()⟩ f) fs = _
    rw [visitField_ok]
    simp only [Bool.false_eq_true, if_false]
    rw [visitAll_ok_notEmpty st fs (out ++ st.paintText ", " ++ fieldText st f)]
    simp [strConcat, strAppendAssoc]

theorem visitField_first (st : Style) (out : String) (f : FieldRec) :
    visitField ⟨⟨st, out, none⟩, true, Except.ok ()⟩ f =
      ⟨⟨st, out ++ fieldText st f, none⟩, false, Except.ok ()⟩ := by
  simp [visitField_ok]

/-- C1: when the styling flag is inactive, painting a value adds nothing: for
every attribute combination (bold, dimmed, italic, color) and every rendered
text of the value in any formatting mode, the painted text is byte-identical to
the plain text; the no-ansi build's paint is likewise a pure passthrough. -/
theorem claim1_inactive_paint_passthrough :
    (∀ (inner : AnsiStyle) (txt : String), Style.paintText ⟨false, inner⟩ txt = txt) ∧
    (∀ txt : String, noAnsiPaintText txt = txt) :=
  ⟨fun _ _ => rfl, fun _ => rfl⟩

/-- C2: for every ambient style, level_color returns a style whose activity flag
is unconditionally true — even when the ambient flag was false — and whose
foreground color is purple for TRACE, blue for DEBUG, green for INFO, yellow for
WARN and red for ERROR. -/
theorem claim2_level_color_forces_active (s : Style) :
    (∀ l : Level, (s.level_color l).is_ansi = true) ∧
    (s.level_color Level.trace).inner.fg = some Color.purple ∧
    (s.level_color Level.debug).inner.fg = some Color.blue ∧
    (s.level_color Level.info).inner.fg = some Color.green ∧
    (s.level_color Level.warn).inner.fg = some Color.yellow ∧
    (s.level_color Level.error).inner.fg = some Color.red :=
  ⟨fun l => by cases l <;> rfl, rfl, rfl, rfl, rfl, rfl⟩

/-- C3: once a visitor pass has observed a write failure (after the fields fs1),
every subsequent field visit is a no-op — the whole state is unchanged — and the
terminal finish call returns that first stored failure. -/
theorem claim3_short_circuit (v : PrettyVisitor) (fs1 fs2 : List FieldRec)
    (h : (visitAll v fs1).result = Except.error ()) :
    visitAll v (fs1 ++ fs2) = visitAll v fs1 ∧
    (visitAll v (fs1 ++ fs2)).finish = Except.error () := by
  have h1 : visitAll v (fs1 ++ fs2) = visitAll v fs1 := by
    show (fs1 ++ fs2).foldl visitField v = _
    rw [List.foldl_append]
    exact foldl_frozen (visitAll v fs1) h fs2
  exact ⟨h1, by rw [h1]; exact h⟩

/-- Witness for C3 at a sink that rejects every write: the first field's visit
fails, the later field changes nothing, and finish reports the failure. -/
theorem claim3_short_circuit_witness :
    (visitAll failingVisitor [⟨"a", FieldValue.str "x"⟩]).result = Except.error () ∧
    (visitAll failingVisitor ([⟨"a", FieldValue.str "x"⟩] ++ [⟨"b", FieldValue.int 1⟩]) =
        visitAll failingVisitor [⟨"a", FieldValue.str "x"⟩] ∧
      (visitAll failingVisitor
            ([⟨"a", FieldValue.str "x"⟩] ++ [⟨"b", FieldValue.int 1⟩])).finish =
        Except.error ()) :=
  ⟨rfl, claim3_short_circuit failingVisitor [⟨"a", FieldValue.str "x"⟩]
    [⟨"b", FieldValue.int 1⟩] rfl⟩

/-- Counterexample to C4 as stated: for the two-field sequence c4fields, whose
first value's rendered text itself contains the two characters of the separator,
the rendered output contains two occurrences of the separator substring, not
N - 1 = 1. -/
theorem claim4_counterexample :
    countOcc (fieldsOut (Style.new false) c4fields) ", " ≠ c4fields.length - 1 := by
  decide

/-- C4 (amended): a visitor pass that starts with the first-field flag set
renders the field sequence as the field texts joined by the styled separator:
the separator is written exactly N - 1 times, strictly between consecutive
fields and never before the first field (the separator characters may in
addition occur inside a field's own rendered text). -/
theorem claim4_separator_placement (st : Style) (fs : List FieldRec) :
    fieldsOut st fs = sepJoin (st.paintText ", ") (fs.map (fieldText st)) := by
  cases fs with
  | nil => rfl
  | cons f fs =>
    show (visitAll (visitField (initVisitor st) f) fs).writer.out = _
    rw [show visitField (initVisitor st) f =
        ⟨⟨st, "" ++ fieldText st f, none⟩, false, Except.ok ()⟩ from visitField_first st "" f]
    rw [visitAll_ok_notEmpty st fs ("" ++ fieldText st f)]
    rw [List.map_cons, sepJoin_cons]
    simp [strEmptyAppend, List.map_map]
    rfl

/-- Counterexample to C5 as stated: in the scenario the code does not produce
the claimed clean text — the message is unquoted and, because level display
forces the field style active, the target and fields carry escape codes. -/
theorem claim5_counterexample :
    formatEvent c5cfg "TS" c5meta c5fields c5th [] ≠
      Except.ok "  TS INFO app: \"hello\", count: 3\n    at app.rs:10\n\n" := by
  intro h
  have e : formatEvent c5cfg "TS" c5meta c5fields c5th [] =
      Except.ok ("  " ++ ("TS" ++ c5tail)) := rfl
  rw [e] at h
  exact absurd (Except.ok.inj h) (by decide)

/-- C5 (amended): in the end-to-end scenario format_event writes exactly two
spaces, the timestamp text, then the c5tail text: the plain level segment
` INFO `, the target `app` and its colon wrapped in the forced-active severity
color codes, one space, the message value `hello` display-formatted (no quotes,
no name label) in color codes, the styled separator, `count`, a colon and `3`
likewise styled, a newline, `    at app.rs:10`, a newline, and a final blank
line. -/
theorem claim5_scenario_output (ts : String) :
    formatEvent c5cfg ts c5meta c5fields c5th [] = Except.ok ("  " ++ (ts ++ c5tail)) := by
  have hbody : eventBody c5cfg ts c5meta c5fields c5th =
      "  " ++ (ts ++ " INFO \x1b[1;32mapp\x1b[0m\x1b[32m:\x1b[0m \x1b[32mhello\x1b[0m\x1b[32m, \x1b[0m\x1b[1;32mcount\x1b[0m\x1b[1;32m:\x1b[0m \x1b[32m3\x1b[0m\n    at app.rs:10\n") :=
    rfl
  show Except.ok (eventBody c5cfg ts c5meta c5fields c5th ++ ("" ++ "\n")) = _
  rw [hbody, strAppendAssoc, strAppendAssoc]
  rfl

theorem scopeLoop_ok (cfg : Config) (di bold : Style) :
    ∀ scopes : List ScopeRec, (∀ s ∈ scopes, s.cache ≠ none) →
      scopeLoop cfg di bold scopes =
        Except.ok (strConcat (scopes.map (scopeLine cfg di bold)))
  | [], _ => rfl
  | s :: rest, h => by
    have ih := scopeLoop_ok cfg di bold rest fun x hx => h x (List.mem_cons_of_mem s hx)
    cases hc : s.cache with
    | none => exact absurd hc (h s (List.mem_cons_self s rest))
    | some f =>
      unfold scopeLoop
      rw [hc, ih]
      simp only [List.map_cons, strConcat]
      congr 1
      unfold scopeLine
      by_cases hfe : f = "" <;> by_cases ht : cfg.display_target <;>
        simp [hc, hfe, ht, strAppendAssoc, strEmptyAppend]

/-- C6: when every scope of the chain has a field cache, format_event appends one
scope line per scope in chain order (innermost first, so an inner scope's line
precedes its parent's): each line is four spaces, the styled `in`, a space, the
`target::` segment omitted when target display is disabled, the bold name, then
` with <cached text>` exactly when the cached text is non-empty, then a line
break. -/
theorem claim6_scope_lines (cfg : Config) (ts : String) (meta : EventMeta)
    (fields : List FieldRec) (th : ThreadInfo) (scopes : List ScopeRec)
    (h : ∀ s ∈ scopes, s.cache ≠ none) :
    scopeLoop cfg cfg.wstyle.dimmed.italic cfg.wstyle.bold scopes =
      Except.ok (strConcat (scopes.map (scopeLine cfg cfg.wstyle.dimmed.italic cfg.wstyle.bold))) ∧
    formatEvent cfg ts meta fields th scopes =
      Except.ok (eventBody cfg ts meta fields th ++
        (strConcat (scopes.map (scopeLine cfg cfg.wstyle.dimmed.italic cfg.wstyle.bold)) ++ "\n")) := by
  have h1 := scopeLoop_ok cfg cfg.wstyle.dimmed.italic cfg.wstyle.bold scopes h
  exact ⟨h1, by unfold formatEvent; rw [h1]⟩

/-- Witness for C6 at the nested-scope scenario: inner scope B (empty cache)
then outer scope A (cache `port: 8080`), giving B's line before A's. -/
theorem claim6_scope_lines_witness :
    scopeLoop c6cfg c6cfg.wstyle.dimmed.italic c6cfg.wstyle.bold [c6scopeB, c6scopeA] =
      Except.ok (strConcat ([c6scopeB, c6scopeA].map
        (scopeLine c6cfg c6cfg.wstyle.dimmed.italic c6cfg.wstyle.bold))) ∧
    formatEvent c6cfg "TS" cMeta [] ⟨none, "ThreadId(1)"⟩ [c6scopeB, c6scopeA] =
      Except.ok (eventBody c6cfg "TS" cMeta [] ⟨none, "ThreadId(1)"⟩ ++
        (strConcat ([c6scopeB, c6scopeA].map
          (scopeLine c6cfg c6cfg.wstyle.dimmed.italic c6cfg.wstyle.bold)) ++ "\n")) :=
  claim6_scope_lines c6cfg "TS" cMeta [] ⟨none, "ThreadId(1)"⟩ [c6scopeB, c6scopeA] (by decide)

theorem rawIdentStrip_append (X : String) : rawIdentStripped ("r#" ++ X) = some X := rfl

theorem rawIdentNeMessage (X : String) : "r#" ++ X ≠ "message" := by
  intro h
  have h2 : 'r' :: '#' :: X.data = ['m', 'e', 's', 's', 'a', 'g', 'e'] :=
    congrArg String.data h
  injection h2 with h3 _
  exact absurd h3 (by decide)

/-- Counterexample to C7 as stated: the field named `r#message` renders as a
labeled ordinary field `message: "v"`, while a field literally named `message`
renders as the bare unlabeled value, so the two renderings differ. -/
theorem claim7_counterexample :
    fieldsOut (Style.new false) [⟨"r#message", FieldValue.str "v"⟩] ≠
      fieldsOut (Style.new false) [⟨"message", FieldValue.str "v"⟩] := by
  decide

/-- C7 (amended): a field whose name is the raw-identifier prefix followed by X
renders exactly like a field literally named X — provided X is not itself
special: X is not `message`, X does not itself begin with the raw-identifier
prefix, and the value is not an error with a non-empty source chain (whose
rendering embeds the unstripped field name in the `.sources` label). -/
theorem claim7_raw_ident_stripping (v : PrettyVisitor) (X : String) (val : FieldValue)
    (hm : X ≠ "message") (hr : rawIdentStripped X = none)
    (he : ∀ d ss, val = FieldValue.errorVal d ss → ss = []) :
    visitField v ⟨"r#" ++ X, val⟩ = visitField v ⟨X, val⟩ := by
  have hsv : styledValueText v.writer.style ("r#" ++ X) val =
      styledValueText v.writer.style X val := by
    cases val with
    | str s => simp [styledValueText, hm, rawIdentNeMessage X]
    | int n => rfl
    | debugVal s => rfl
    | errorVal d ss =>
      have hss := he d ss rfl
      subst hss
      rfl
  cases hres : v.result with
  | error e => simp [visitField, hres]
  | ok u =>
    simp only [visitField, hres]
    rw [hsv]
    unfold PrettyVisitor.record_debug_impl
    rw [rawIdentStrip_append X]
    simp [rawIdentNeMessage X, hm, hr]

/-- Witness for C7 at the field name `count` with an integer value. -/
theorem claim7_raw_ident_stripping_witness :
    visitField (initVisitor (Style.new false)) ⟨"r#" ++ "count", FieldValue.int 3⟩ =
      visitField (initVisitor (Style.new false)) ⟨"count", FieldValue.int 3⟩ :=
  claim7_raw_ident_stripping (initVisitor (Style.new false)) "count" (FieldValue.int 3)
    (by decide) rfl (fun d ss h => by cases h)

/-- C8: the line number is inlined into the header — directly after the target
segment — exactly when line-number display is enabled, filename display is
disabled, location display is enabled and the line is known; in every other
configuration the inline segment is empty, so the line number is absent from the
header (the location line inside headPost carries it when applicable). -/
theorem claim8_inline_line_number (cfg : Config) (ts : String) (meta : EventMeta)
    (fields : List FieldRec) (th : ThreadInfo) :
    (∀ (style : Style) (line : Option Nat),
      inlineLinePart cfg style line = specInlineLine cfg style line) ∧
    eventBody cfg ts meta fields th =
      headPre cfg ts meta ++
        (specInlineLine cfg (eventStyle cfg meta.level) meta.line ++
          headPost cfg meta fields th) := by
  have hA : ∀ (style : Style) (line : Option Nat),
      inlineLinePart cfg style line = specInlineLine cfg style line := by
    intro style line
    unfold inlineLinePart specInlineLine lineNumberOf
    cases hdln : cfg.display_line_number <;> cases hdf : cfg.display_filename <;>
      cases hdl : cfg.display_location <;> cases line <;> simp
  refine ⟨hA, ?_⟩
  unfold eventBody headPre headPost
  rw [← hA]
  simp [strAppendAssoc]

theorem scopeLoop_missing (cfg : Config) (di bold : Style) :
    ∀ scopes : List ScopeRec, (∃ s ∈ scopes, s.cache = none) →
      scopeLoop cfg di bold scopes = Except.error missingCacheMsg
  | [], ⟨x, hx, _⟩ => absurd hx (List.not_mem_nil x)
  | s :: rest, ⟨x, hx, hxc⟩ => by
    cases hc : s.cache with
    | none => unfold scopeLoop; rw [hc]
    | some f =>
      have hxrest : x ∈ rest := by
        cases List.mem_cons.mp hx with
        | inl h => rw [h, hc] at hxc; cases hxc
        | inr h => exact h
      have ih := scopeLoop_missing cfg di bold rest ⟨x, hxrest, hxc⟩
      unfold scopeLoop
      rw [hc, ih]

/-- C9: format_event aborts with the FormattedFields panic message exactly when
some scope of the chain has no field cache entry; when every scope has one the
panic branch is unreachable, and the panic is an abort (Except.error), not a
recoverable formatter result and not a silent skip. -/
theorem claim9_missing_cache_panics (cfg : Config) (ts : String) (meta : EventMeta)
    (fields : List FieldRec) (th : ThreadInfo) (scopes : List ScopeRec) :
    formatEvent cfg ts meta fields th scopes = Except.error missingCacheMsg ↔
      ∃ s ∈ scopes, s.cache = none := by
  constructor
  · intro h
    by_contra hne
    push_neg at hne
    have hok := scopeLoop_ok cfg cfg.wstyle.dimmed.italic cfg.wstyle.bold scopes hne
    unfold formatEvent at h
    rw [hok] at h
    cases h
  · intro hex
    unfold formatEvent
    rw [scopeLoop_missing cfg cfg.wstyle.dimmed.italic cfg.wstyle.bold scopes hex]

/-- C10: when thread-name display is enabled, thread-id display is disabled and
the executing thread has no name, format_event still writes the thread-line
prefix — the styled word `on` and one space — and then immediately a line break,
a dangling `on ` line with no thread identity text. -/
theorem claim10_dangling_thread_line (cfg : Config) (ts : String) (meta : EventMeta)
    (fields : List FieldRec) (th : ThreadInfo)
    (hn : cfg.display_thread_name = true) (hi : cfg.display_thread_id = false)
    (hth : th.name = none) :
    threadPart cfg cfg.wstyle.dimmed.italic th =
      cfg.wstyle.dimmed.italic.paintText "on" ++ " " ++ "\n" ∧
    formatEvent cfg ts meta fields th [] =
      Except.ok (bodyBeforeThread cfg ts meta fields ++
        (cfg.wstyle.dimmed.italic.paintText "on" ++ " " ++ "\n" ++ "\n")) := by
  have hA : ∀ di : Style, threadPart cfg di th = di.paintText "on" ++ " " ++ "\n" := by
    intro di
    unfold threadPart threadFlag
    rw [hn, hi, hth]
    simp [strAppendAssoc]
  refine ⟨hA cfg.wstyle.dimmed.italic, ?_⟩
  show Except.ok (eventBody cfg ts meta fields th ++ ("" ++ "\n")) = _
  congr 1
  unfold eventBody bodyBeforeThread
  simp [hA, strAppendAssoc, strEmptyAppend]

/-- Witness for C10: a named-thread display with an unnamed thread produces the
dangling `on ` line. -/
theorem claim10_dangling_thread_line_witness :
    threadPart c10cfg c10cfg.wstyle.dimmed.italic c10th =
      c10cfg.wstyle.dimmed.italic.paintText "on" ++ " " ++ "\n" ∧
    formatEvent c10cfg "TS" cMeta [] c10th [] =
      Except.ok (bodyBeforeThread c10cfg "TS" cMeta [] ++
        (c10cfg.wstyle.dimmed.italic.paintText "on" ++ " " ++ "\n" ++ "\n")) :=
  claim10_dangling_thread_line c10cfg "TS" cMeta [] c10th rfl rfl rfl

end TracingPretty
